import Mathlib

/-!
Verification model of the Companies House scraper pipeline
(tools/companies-house-scraper): the result parsers of
`simple_scraper.py`, `db_scraper.py` and `db_scraper_fixed.py`, the
run-local dedup index of `simple_scraper.py`, and the persistence
upserter and pagination driver of `db_scraper_fixed.py`.
Python strings are modelled as `String`, dictionaries with optional
keys as structures with `Option` fields, regular-expression searches
as explicit leftmost-match scanners over character lists, and the
PostgreSQL `scraped_companies` table as a list of rows keyed by
`company_number`.
-/

/-- Model of Python `needle in hay` on the character-list level:
true when `needle` occurs as a contiguous sublist. -/
def containsSubL (needle : List Char) : List Char → Bool
  | [] => needle.isEmpty
  | c :: rest => needle.isPrefixOf (c :: rest) || containsSubL needle rest

/-- Model of Python `needle in hay` for strings. -/
def containsSub (hay needle : String) : Bool :=
  containsSubL needle.toList hay.toList

/-- Model of Python `str.strip()` (ASCII whitespace). -/
def pyStrip (s : String) : String :=
  String.mk
    (((s.data.dropWhile Char.isWhitespace).reverse.dropWhile
      Char.isWhitespace).reverse)

/-- Model of Python `str.upper()` (ASCII). -/
def pyUpper (s : String) : String :=
  String.mk (s.data.map Char.toUpper)

/-- Model of Python `str.startswith(pre)`. -/
def pyStartsWith (s pre : String) : Bool :=
  pre.data.isPrefixOf s.data

/-- Splitting a character list on a separator character, Python
`str.split(sep)` style (empty input gives one empty part). -/
def splitListOn (sep : Char) : List Char → List (List Char)
  | [] => [[]]
  | c :: rest =>
    match splitListOn sep rest with
    | [] => [[]]
    | g :: gs => if c == sep then [] :: g :: gs else (c :: g) :: gs

/-- Model of Python `s.split(sep)` for a one-character separator. -/
def pySplitChar (s : String) (sep : Char) : List String :=
  (splitListOn sep s.data).map String.mk

/-- Model of `int(s)` on an all-digit string, `none` otherwise. -/
def pyToNat? (s : String) : Option Nat :=
  match s.data with
  | [] => none
  | cs =>
    if cs.all Char.isDigit then
      some (cs.foldl (fun acc c => acc * 10 + (c.toNat - 48)) 0)
    else none

/-- Character class `[A-Z0-9]` of the company-number capture group. -/
def isCompanyIdChar (c : Char) : Bool :=
  c.isUpper || c.isDigit

/-- Leftmost-match scanner for `re.search(r'/company/([A-Z0-9]+)', url)`:
finds the first position where the literal `/company/` is followed by at
least one `[A-Z0-9]` character and returns the maximal such run. -/
def findCompanyNumber : List Char → Option String
  | [] => none
  | c :: rest =>
    if ("/company/".toList).isPrefixOf (c :: rest) then
      let run := ((c :: rest).drop 9).takeWhile isCompanyIdChar
      if run.isEmpty then findCompanyNumber rest else some (String.mk run)
    else findCompanyNumber rest

/-- Postcode pattern `[A-Z]{1,2}\d[A-Z\d]? ?\d[A-Z]{2}`, final mandatory
part `\d[A-Z]{2}`. -/
def pcEnd : List Char → Option (List Char)
  | d :: a :: b :: _ =>
    if d.isDigit && a.isUpper && b.isUpper then some [d, a, b] else none
  | _ => none

/-- Optional space before the final part (` ?`), greedy: a present space
is consumed first, as the regex engine would. -/
def pcSpaceEnd (cs : List Char) : Option (List Char) :=
  match cs with
  | ' ' :: rest =>
    match pcEnd rest with
    | some m => some (' ' :: m)
    | none => pcEnd cs
  | _ => pcEnd cs

/-- Middle part `\d[A-Z\d]?` followed by the tail, with greedy optional
character and backtracking. -/
def pcMid : List Char → Option (List Char)
  | [] => none
  | d :: rest =>
    if d.isDigit then
      match rest with
      | x :: rest2 =>
        if x.isUpper || x.isDigit then
          match pcSpaceEnd rest2 with
          | some m => some (d :: x :: m)
          | none => (pcSpaceEnd rest).map (fun m => d :: m)
        else (pcSpaceEnd rest).map (fun m => d :: m)
      | [] => (pcSpaceEnd rest).map (fun m => d :: m)
    else none

/-- Leading letters `[A-Z]{1,2}` (greedy, two first) followed by the
rest of the postcode pattern, anchored at the current position. -/
def pcAt : List Char → Option (List Char)
  | [] => none
  | a :: rest =>
    if a.isUpper then
      match rest with
      | b :: rest2 =>
        if b.isUpper then
          match pcMid rest2 with
          | some m => some (a :: b :: m)
          | none => (pcMid rest).map (fun m => a :: m)
        else (pcMid rest).map (fun m => a :: m)
      | [] => none
    else none

/-- Leftmost-match scanner for
`re.search(r'[A-Z]{1,2}\d[A-Z\d]? ?\d[A-Z]{2}', text)`. -/
def findPostcode : List Char → Option String
  | [] => none
  | c :: rest =>
    match pcAt (c :: rest) with
    | some m => some (String.mk m)
    | none => findPostcode rest

/-- Word character class `\w` (ASCII model, as used for English month
names in the incorporation-date pattern). -/
def isWordChar (c : Char) : Bool :=
  c.isAlphanum || c == '_'

/-- Tail ` \w+ \d{4}` of the incorporation-date capture group. -/
def incorpTail (cs : List Char) : Option (List Char) :=
  match cs with
  | ' ' :: rest =>
    let run := rest.takeWhile isWordChar
    if run.isEmpty then none
    else
      match rest.drop run.length with
      | ' ' :: y1 :: y2 :: y3 :: y4 :: _ =>
        if y1.isDigit && y2.isDigit && y3.isDigit && y4.isDigit then
          some ((' ' :: run) ++ (' ' :: [y1, y2, y3, y4]))
        else none
      | _ => none
  | _ => none

/-- Day part `\d{1,2}` (greedy, two digits first) followed by the tail
of the date group, anchored at the current position. -/
def incorpAt (cs : List Char) : Option (List Char) :=
  match cs with
  | [] => none
  | d1 :: rest =>
    if d1.isDigit then
      match rest with
      | d2 :: rest2 =>
        if d2.isDigit then
          match incorpTail rest2 with
          | some t => some (d1 :: d2 :: t)
          | none => (incorpTail rest).map (fun t => d1 :: t)
        else (incorpTail rest).map (fun t => d1 :: t)
      | [] => none
    else none

/-- Leftmost-match scanner for
`re.search(r'Incorporated on (\d{1,2} \w+ \d{4})', text)`, returning
the captured group. -/
def findIncorpDateL : List Char → Option (List Char)
  | [] => none
  | c :: rest =>
    if ("Incorporated on ".toList).isPrefixOf (c :: rest) then
      match incorpAt ((c :: rest).drop 16) with
      | some g => some g
      | none => findIncorpDateL rest
    else findIncorpDateL rest

/-- String-level wrapper of the incorporation-date scanner. -/
def findIncorpDate (s : String) : Option String :=
  (findIncorpDateL s.toList).map String.mk

/-- Full English month names accepted by `strptime`'s `%B`. -/
def monthNames : List String :=
  ["January", "February", "March", "April", "May", "June", "July",
   "August", "September", "October", "November", "December"]

/-- One-based index of a month name, `none` for anything else. -/
def monthIndex (m : String) : Option Nat :=
  match monthNames.indexOf? m with
  | some i => some (i + 1)
  | none => none

/-- Gregorian leap-year rule used by `datetime`. -/
def isLeap (y : Nat) : Bool :=
  (y % 4 == 0 && y % 100 != 0) || y % 400 == 0

/-- Number of days in a month, with the leap rule for February. -/
def monthLen (m y : Nat) : Nat :=
  if m == 2 then (if isLeap y then 29 else 28)
  else if m == 4 || m == 6 || m == 9 || m == 11 then 30
  else 31

/-- Model of `datetime.strptime(s, '%d %B %Y')` succeeding: day within
the month's range, month a full English name, four-digit year. -/
def strptimeOk (s : String) : Bool :=
  match pySplitChar s ' ' with
  | [d, m, y] =>
    match pyToNat? d, monthIndex m, pyToNat? y with
    | some dn, some mi, some yn => 1 ≤ dn && dn ≤ monthLen mi yn
    | _, _, _ => false
  | _ => false

/-- Company-number fallback pattern `(\d{8}|\d{7}[A-Z]{2})` anchored at
the current position, alternatives tried in regex order. -/
def numFallbackAt (cs : List Char) : Option (List Char) :=
  if (cs.take 8).length = 8 ∧ (cs.take 8).all Char.isDigit then
    some (cs.take 8)
  else if (cs.take 7).length = 7 ∧ (cs.take 7).all Char.isDigit ∧
      ((cs.drop 7).take 2).length = 2 ∧ ((cs.drop 7).take 2).all Char.isUpper then
    some (cs.take 9)
  else none

/-- Leftmost-match scanner for
`re.search(r'(\d{8}|\d{7}[A-Z]{2})', text)`. -/
def findNumFallback : List Char → Option String
  | [] => none
  | c :: rest =>
    match numFallbackAt (c :: rest) with
    | some m => some (String.mk m)
    | none => findNumFallback rest

/-- Model of an `<a>` tag inside a result heading: `company_link.text`
and `company_link.get('href', '')` (`none` when the attribute is
absent). -/
structure Link where
  text : String
  href : Option String
  deriving Repr, DecidableEq

/-- Model of an `<h3>` heading of a result block: its CSS classes and
its first contained link (`find('a')`). -/
structure Heading where
  classes : List String
  link : Option Link
  deriving Repr, DecidableEq

/-- Model of a `<p>` descriptive fragment of a result block:
`detail.text`, `detail.get('class', [])`, and whether it contains a
`<span class="address">` child. -/
structure Para where
  text : String
  classes : List String
  hasAddressSpan : Bool
  deriving Repr, DecidableEq

/-- Model of the `result_element` passed to `parse_company_result`:
either a parsed tag with its headings and paragraphs, or an arbitrarily
malformed object on which any attribute access raises the carried
exception message. -/
inductive Elem where
  | node (headings : List Heading) (paras : List Para)
  | broken (msg : String)
  deriving Repr, DecidableEq

/-- Attribute access for the heading lookup; raises on a malformed
element. -/
def getHeadings : Elem → Except String (List Heading)
  | .node hs _ => .ok hs
  | .broken m => .error m

/-- Attribute access for `find_all('p')`; raises on a malformed
element. -/
def getParas : Elem → Except String (List Para)
  | .node _ ps => .ok ps
  | .broken m => .error m

/-- Paragraph texts of an element (stripped), in document order. -/
def elemParaTexts : Elem → List String
  | .node _ ps => ps.map (fun p => pyStrip p.text)
  | .broken _ => []

/-- Model of the `company_data` dictionary built by the parsers; keys
that a variant may leave unset are `Option` fields. The `scraped_at`
wall-clock timestamp is outside the model. -/
structure Candidate where
  company_name : String
  company_number : String
  company_url : String
  company_status : Option String
  company_type : Option String
  date_of_creation : Option String
  address : Option String
  postal_code : Option String
  sector_keyword : Option String
  deriving Repr, DecidableEq

/-- Site prefix prepended to the relative detail URL. -/
def baseUrl : String :=
  "https://find-and-update.company-information.service.gov.uk"

/-- Initial dictionary of `db_scraper_fixed.parse_company_result`
(status defaulted to `active` up front). -/
def fixedInit (nm num url : String) : Candidate :=
  { company_name := nm, company_number := num,
    company_url := baseUrl ++ url, company_status := some "active",
    company_type := none, date_of_creation := none, address := none,
    postal_code := none, sector_keyword := none }

/-- Initial dictionary of the `simple_scraper.py` and `db_scraper.py`
parsers (no status key set up front). -/
def plainInit (nm num url : String) : Candidate :=
  { company_name := nm, company_number := num,
    company_url := baseUrl ++ url, company_status := none,
    company_type := none, date_of_creation := none, address := none,
    postal_code := none, sector_keyword := none }

/-- Incorporation-date update with `strptime` validation, as in
`db_scraper.py` and `db_scraper_fixed.py` (the inner `try` swallows an
invalid date). -/
def dateUpdStrict (c : Candidate) (text : String) : Candidate :=
  match findIncorpDate text with
  | some d => if strptimeOk d then { c with date_of_creation := some d } else c
  | none => c

/-- Incorporation-date update of `simple_scraper.py`, which stores the
raw matched string without validation. -/
def dateUpdRaw (c : Candidate) (text : String) : Candidate :=
  match findIncorpDate text with
  | some d => { c with date_of_creation := some d }
  | none => c

/-- Entity-type update of `simple_scraper.py` and `db_scraper.py`: the
`elif` chain over type phrases found in the paragraph text. -/
def phraseTypeUpd (c : Candidate) (text : String) : Candidate :=
  if containsSub text "Private limited Company" then
    { c with company_type := some "ltd" }
  else if containsSub text "Public limited Company" then
    { c with company_type := some "plc" }
  else if containsSub text "Limited liability partnership" then
    { c with company_type := some "llp" }
  else c

/-- Entity-type update of `db_scraper_fixed.py`, driven by the
uppercased company name rather than the paragraph text. -/
def nameTypeUpd (c : Candidate) : Candidate :=
  if containsSub (pyUpper c.company_name) "LIMITED" then
    if containsSub (pyUpper c.company_name) "PLC" then
      { c with company_type := some "plc" }
    else if containsSub (pyUpper c.company_name) "LLP" then
      { c with company_type := some "llp" }
    else { c with company_type := some "ltd" }
  else c

/-- Dead-code company-number fallback of `db_scraper_fixed.py` (the
guard earlier in the function makes an empty number unreachable). -/
def numUpd (c : Candidate) (text : String) : Candidate :=
  if c.company_number = "" then
    match findNumFallback text.toList with
    | some n => { c with company_number := n }
    | none => c
  else c

/-- Address/postcode update of `db_scraper_fixed.py`: comma-containing
text longer than 20 characters that is not the "Matching" banner. -/
def fixedAddrUpd (c : Candidate) (text : String) : Candidate :=
  if containsSub text "," = true ∧ text.length > 20 ∧
      pyStartsWith text "Matching" = false then
    match findPostcode text.toList with
    | some pc => { c with address := some text, postal_code := some pc }
    | none => { c with address := some text }
  else c

/-- Newline separator of the line split in `db_scraper.py`. -/
def newlineChar : Char := Char.ofNat 10

/-- Address/postcode update of `db_scraper.py`: an `address` CSS class
or any comma-containing line. -/
def dbAddrUpd (c : Candidate) (text : String) (p : Para) : Candidate :=
  if p.classes.contains "address" ||
      (pySplitChar text newlineChar).any (fun l => containsSub l ",") then
    match findPostcode text.toList with
    | some pc => { c with address := some text, postal_code := some pc }
    | none => { c with address := some text }
  else c

/-- Address update of `simple_scraper.py`, keyed on an address span
(no postcode extraction in that variant). -/
def simpleAddrUpd (c : Candidate) (text : String) (p : Para) : Candidate :=
  if p.hasAddressSpan then { c with address := some text } else c

/-- One paragraph of the `db_scraper_fixed.py` detail loop after the
dissolved check: date, dead number fallback, name-based type, address. -/
def fixedStep (c : Candidate) (text : String) : Candidate :=
  fixedAddrUpd (nameTypeUpd (numUpd (dateUpdStrict c text) text)) text

/-- Detail loop of `db_scraper_fixed.py`: any paragraph containing
`Dissolved` or `dissolved` aborts the whole block with no candidate. -/
def fixedDetailsLoop (c : Candidate) : List Para → Option Candidate
  | [] => some c
  | p :: ps =>
    let text := pyStrip p.text
    if containsSub text "Dissolved" || containsSub text "dissolved" then none
    else fixedDetailsLoop (fixedStep c text) ps

/-- Body of `db_scraper_fixed.parse_company_result` inside its `try`:
heading, link, company-number guard, then the detail loop. -/
def parseCompanyResultFixedBody (e : Elem) : Except String (Option Candidate) := do
  let hs ← getHeadings e
  match hs.head? with
  | none => pure none
  | some h =>
    match h.link with
    | none => pure none
    | some link =>
      let nm := pyStrip link.text
      let url := link.href.getD ""
      let num := (findCompanyNumber url.toList).getD ""
      if num = "" then pure none
      else do
        let ps ← getParas e
        pure (fixedDetailsLoop (fixedInit nm num url) ps)

/-- Public `db_scraper_fixed.parse_company_result`: the outer `except`
converts any raised error into the no-candidate result. -/
def parseCompanyResultFixed (e : Elem) : Option Candidate :=
  match parseCompanyResultFixedBody e with
  | .ok r => r
  | .error _ => none

/-- One paragraph of the `simple_scraper.py` detail loop: the `elif`
status chain (whose dissolved branch `continue`s past the remaining
checks), then type, address and date updates. -/
def simpleStep (c : Candidate) (p : Para) : Candidate :=
  let text := pyStrip p.text
  if containsSub text "Active" then
    dateUpdRaw (simpleAddrUpd (phraseTypeUpd
      { c with company_status := some "active" } text) text p) text
  else if containsSub text "Dissolved" then
    { c with company_status := some "dissolved" }
  else
    dateUpdRaw (simpleAddrUpd (phraseTypeUpd c text) text p) text

/-- Body of `simple_scraper.parse_company_result` inside its `try`:
heading with the `heading-medium` class, link, no company-number guard,
detail loop, and the final only-active filter. -/
def parseCompanyResultSimpleBody (e : Elem) : Except String (Option Candidate) := do
  let hs ← getHeadings e
  match hs.find? (fun h => h.classes.contains "heading-medium") with
  | none => pure none
  | some h =>
    match h.link with
    | none => pure none
    | some link =>
      let nm := pyStrip link.text
      let url := link.href.getD ""
      let num := (findCompanyNumber url.toList).getD ""
      let ps ← getParas e
      let c := ps.foldl simpleStep (plainInit nm num url)
      pure (if c.company_status == some "active" then some c else none)

/-- Public `simple_scraper.parse_company_result` with the outer catch. -/
def parseCompanyResultSimple (e : Elem) : Option Candidate :=
  match parseCompanyResultSimpleBody e with
  | .ok r => r
  | .error _ => none

/-- One paragraph of the `db_scraper.py` detail loop after the status
check: type, address, date updates in source order. -/
def dbStep (c : Candidate) (text : String) (p : Para) : Candidate :=
  dateUpdStrict (dbAddrUpd (phraseTypeUpd c text) text p) text

/-- Detail loop of `db_scraper.py`: an `Active` paragraph marks the
status, a `Dissolved` paragraph (without `Active`) aborts the block. -/
def dbDetailsLoop (c : Candidate) : List Para → Option Candidate
  | [] => some c
  | p :: ps =>
    let text := pyStrip p.text
    if containsSub text "Active" then
      dbDetailsLoop (dbStep { c with company_status := some "active" } text p) ps
    else if containsSub text "Dissolved" then none
    else dbDetailsLoop (dbStep c text p) ps

/-- Body of `db_scraper.parse_company_result` inside its `try`: heading,
link, no company-number guard, detail loop, only-active filter. -/
def parseCompanyResultDbBody (e : Elem) : Except String (Option Candidate) := do
  let hs ← getHeadings e
  match hs.head? with
  | none => pure none
  | some h =>
    match h.link with
    | none => pure none
    | some link =>
      let nm := pyStrip link.text
      let url := link.href.getD ""
      let num := (findCompanyNumber url.toList).getD ""
      let ps ← getParas e
      match dbDetailsLoop (plainInit nm num url) ps with
      | none => pure none
      | some c =>
        pure (if c.company_status == some "active" then some c else none)

/-- Public `db_scraper.parse_company_result` with the outer catch. -/
def parseCompanyResultDb (e : Elem) : Option Candidate :=
  match parseCompanyResultDbBody e with
  | .ok r => r
  | .error _ => none

/-- Model of one `scraped_companies` row. Timestamps are modelled as
abstract `Nat` instants; `created_at`, `updated_at` and
`last_checked_at` are filled by column defaults on insert. -/
structure Row where
  company_number : String
  company_name : String
  company_type : Option String
  company_status : String
  date_of_creation : Option String
  address : Option String
  postal_code : Option String
  sector_keyword : Option String
  company_url : Option String
  data_source : String
  created_at : Nat
  updated_at : Nat
  last_checked_at : Nat
  deriving Repr, DecidableEq

/-- Lookup of the row stored under a company number (the table's
unique key). -/
def getRow : List Row → String → Option Row
  | [], _ => none
  | r :: rest, num =>
    if r.company_number == num then some r else getRow rest num

/-- SQL `COALESCE(EXCLUDED.x, stored.x)`: the new value unless it is
NULL. -/
def coalesce (new old : Option String) : Option String :=
  match new with
  | some v => some v
  | none => old

/-- Conflict-path update of `db_scraper_fixed.save_company_to_db`:
name unconditionally, address and postal code through `COALESCE`, both
update timestamps refreshed, all other columns untouched. -/
def mergedFixed (r : Row) (c : Candidate) (now : Nat) : Row :=
  { r with company_name := c.company_name,
           address := coalesce c.address r.address,
           postal_code := coalesce c.postal_code r.postal_code,
           updated_at := now, last_checked_at := now }

/-- Fresh row built by the insert path of
`db_scraper_fixed.save_company_to_db` (status defaulted to `active`,
data source fixed, timestamp columns from defaults). -/
def insertRowFixed (c : Candidate) (now : Nat) : Row :=
  { company_number := c.company_number, company_name := c.company_name,
    company_type := c.company_type,
    company_status := c.company_status.getD "active",
    date_of_creation := c.date_of_creation, address := c.address,
    postal_code := c.postal_code, sector_keyword := c.sector_keyword,
    company_url := some c.company_url, data_source := "companies_house",
    created_at := now, updated_at := now, last_checked_at := now }

/-- `INSERT ... ON CONFLICT (company_number) DO UPDATE` of
`db_scraper_fixed.py` on the table model. -/
def upsertFixed (db : List Row) (c : Candidate) (now : Nat) : List Row :=
  match getRow db c.company_number with
  | some _ =>
    db.map (fun r =>
      if r.company_number == c.company_number then mergedFixed r c now else r)
  | none => db ++ [insertRowFixed c now]

/-- `db_scraper_fixed.save_company_to_db`: an exception during the
statement (constraint violation, lost connection — modelled by the
`fails` oracle) rolls the one-candidate transaction back and returns
`False`; otherwise the upsert is committed and the `RETURNING id` row
makes the call return `True`. -/
def saveCompanyToDb (fails : Candidate → Bool) (db : List Row)
    (c : Candidate) (now : Nat) : Bool × List Row :=
  if fails c then (false, db) else (true, upsertFixed db c now)

/-- Run state of `db_scraper_fixed.scrape_and_save`: the table, the
trace of fetch requests and of persistence calls, the global and
per-sector saved counters, and the per-sector statistics. -/
structure RunSt where
  db : List Row
  requests : List (String × Nat)
  calls : List Candidate
  saved : Nat
  sectorCnt : Nat
  stats : List (String × Nat)
  deriving Repr, DecidableEq

/-- Per-candidate step of the page loop: tag the candidate with the
sector keyword, call `save_company_to_db`, count it only on success. -/
def pageStep (fails : Candidate → Bool) (now : Nat) (sector : String)
    (st : RunSt) (c : Candidate) : RunSt :=
  let c' := { c with sector_keyword := some sector }
  let res := saveCompanyToDb fails st.db c' now
  { st with db := res.2, calls := st.calls ++ [c'],
            saved := if res.1 then st.saved + 1 else st.saved,
            sectorCnt := if res.1 then st.sectorCnt + 1 else st.sectorCnt }

/-- Page body of `db_scraper_fixed.scrape_and_save`: save every parsed
candidate of the page in order. -/
def runPage (fails : Candidate → Bool) (now : Nat) (sector : String)
    (cs : List Candidate) (st : RunSt) : RunSt :=
  cs.foldl (pageStep fails now sector) st

/-- Page loop of `db_scraper_fixed.scrape_and_save` for one sector,
`for page in range(1, max_pages + 1)` with the break on an empty
result: the remaining iteration count is the structural fuel. -/
def runSectorFuel (results : String → Nat → List Candidate)
    (fails : Candidate → Bool) (now : Nat) (sector : String) :
    Nat → Nat → RunSt → RunSt
  | _, 0, st => st
  | page, fuel + 1, st =>
    let st' := { st with requests := st.requests ++ [(sector, page)] }
    let cs := results sector page
    if cs.isEmpty then st'
    else runSectorFuel results fails now sector (page + 1) fuel
      (runPage fails now sector cs st')

/-- Sector loop of `db_scraper_fixed.scrape_and_save`: reset the
per-sector counter, run the pages, record the sector statistic. -/
def runSectors (results : String → Nat → List Candidate)
    (fails : Candidate → Bool) (now : Nat) :
    List String → Nat → RunSt → RunSt
  | [], _, st => st
  | sector :: rest, maxPages, st =>
    let st1 := runSectorFuel results fails now sector 1 maxPages
      { st with sectorCnt := 0 }
    runSectors results fails now rest maxPages
      { st1 with stats := st1.stats ++ [(sector, st1.sectorCnt)] }

/-- Initial run state over a given table. -/
def initRun (db : List Row) : RunSt :=
  { db := db, requests := [], calls := [], saved := 0, sectorCnt := 0,
    stats := [] }

/-- `db_scraper_fixed.scrape_and_save` over a results oracle (the
outcome of `search_companies`, with a fetch failure modelled as an
empty page) and a persistence-failure oracle. -/
def scrapeAndSaveFixed (results : String → Nat → List Candidate)
    (fails : Candidate → Bool) (now : Nat) (sectors : List String)
    (maxPages : Nat) (db : List Row) : RunSt :=
  runSectors results fails now sectors maxPages (initRun db)

/-- Per-candidate step of `simple_scraper.scrape_companies_by_sector`:
the state is the run-scoped `seen_companies` set and the accumulated
`all_companies` list; a candidate passes only with a truthy (non-empty)
company number not seen before. -/
def seenStep (sector : String) (st : List String × List Candidate)
    (c : Candidate) : List String × List Candidate :=
  if c.company_number ≠ "" ∧ st.1.contains c.company_number = false then
    (st.1 ++ [c.company_number],
     st.2 ++ [{ c with sector_keyword := some sector }])
  else st

/-- Page loop of `simple_scraper.scrape_companies_by_sector` for one
sector, with the break on an empty page. -/
def simpleSectorFuel (results : String → Nat → List Candidate)
    (sector : String) :
    Nat → Nat → List String × List Candidate → List String × List Candidate
  | _, 0, st => st
  | page, fuel + 1, st =>
    let cs := results sector page
    if cs.isEmpty then st
    else simpleSectorFuel results sector (page + 1) fuel
      (cs.foldl (seenStep sector) st)

/-- Sector loop of `simple_scraper.scrape_companies_by_sector`; the
seen set is threaded across sectors. -/
def simpleSectors (results : String → Nat → List Candidate) :
    List String → Nat → List String × List Candidate →
    List String × List Candidate
  | [], _, st => st
  | sector :: rest, maxPages, st =>
    simpleSectors results rest maxPages
      (simpleSectorFuel results sector 1 maxPages st)

/-- `simple_scraper.scrape_companies_by_sector`: the emitted
`all_companies` list. -/
def scrapeCompaniesBySector (results : String → Nat → List Candidate)
    (sectors : List String) (maxPages : Nat) : List Candidate :=
  (simpleSectors results sectors maxPages ([], [])).2

/-- Declarative entity-type phrase mapping of the specification: the
`elif` chain applied to one text fragment. -/
def entityPhrase (text : String) : Option String :=
  if containsSub text "Private limited Company" then some "ltd"
  else if containsSub text "Public limited Company" then some "plc"
  else if containsSub text "Limited liability partnership" then some "llp"
  else none

/-- Modelled from the spec: entity type over a block's fragments with
the last-matching fragment winning, `none` (unknown) when no fragment
matches. -/
def entityTypeFold (texts : List String) : Option String :=
  texts.foldl (fun acc t =>
    match entityPhrase t with
    | some ty => some ty
    | none => acc) none

/-! Helper lemmas -/

/-- A successful company-number capture is non-empty (the group is
`[A-Z0-9]+`). -/
theorem findCompanyNumber_ne_empty (cs : List Char) (s : String)
    (h : findCompanyNumber cs = some s) : s ≠ "" := by
  induction cs with
  | nil => simp [findCompanyNumber] at h
  | cons c rest ih =>
    simp only [findCompanyNumber] at h
    split at h
    · split at h
      · exact ih h
      · rename_i hrun
        injection h with h
        subst h
        intro hs
        apply hrun
        have := congrArg String.data hs
        simpa [List.isEmpty_iff] using this
    · exact ih h

/-- Any match of the anchored postcode pattern is a non-empty character
list. -/
theorem pcAt_ne_nil (cs : List Char) (m : List Char)
    (h : pcAt cs = some m) : m ≠ [] := by
  cases cs with
  | nil => simp [pcAt] at h
  | cons a rest =>
    cases rest with
    | nil =>
      simp only [pcAt] at h
      split at h <;> simp_all
    | cons b rest2 =>
      simp only [pcAt] at h
      split at h
      · split at h
        · split at h
          · injection h with h
            subst h
            simp
          · rw [Option.map_eq_some'] at h
            obtain ⟨m', _, rfl⟩ := h
            simp
        · rw [Option.map_eq_some'] at h
          obtain ⟨m', _, rfl⟩ := h
          simp
      · simp at h

/-- A successful postcode extraction is a non-empty string. -/
theorem findPostcode_ne_empty (cs : List Char) (s : String)
    (h : findPostcode cs = some s) : s ≠ "" := by
  induction cs with
  | nil => simp [findPostcode] at h
  | cons c rest ih =>
    rw [findPostcode] at h
    split at h
    · rename_i m hm
      injection h with h
      subst h
      intro hs
      exact pcAt_ne_nil _ _ hm (congrArg String.data hs)
    · exact ih h

/-- The conflict-path merge leaves the row's key unchanged. -/
theorem mergedFixed_number (r : Row) (c : Candidate) (now : Nat) :
    (mergedFixed r c now).company_number = r.company_number := rfl

/-- Mapping the conflict update over the table rewrites exactly the row
stored under the candidate's key. -/
theorem getRow_map_merge (db : List Row) (c : Candidate) (now : Nat)
    (r : Row) (h : getRow db c.company_number = some r) :
    getRow (db.map (fun x =>
        if x.company_number == c.company_number then mergedFixed x c now else x))
      c.company_number = some (mergedFixed r c now) := by
  induction db with
  | nil => simp [getRow] at h
  | cons x xs ih =>
    by_cases hx : (x.company_number == c.company_number) = true
    · have hr : r = x := by
        rw [getRow, if_pos hx] at h
        exact (Option.some.inj h).symm
      subst hr
      simp only [List.map_cons, if_pos hx]
      rw [getRow, if_pos]
      rw [mergedFixed_number]
      exact hx
    · have hfind : getRow xs c.company_number = some r := by
        rwa [getRow, if_neg hx] at h
      have hres := ih hfind
      simp only [List.map_cons, if_neg hx]
      rw [getRow, if_neg hx]
      exact hres

/-- Upserting a candidate whose key is already stored takes the
conflict path and rewrites the stored row to the merged row. -/
theorem getRow_upsert_conflict (db : List Row) (c : Candidate) (now : Nat)
    (r : Row) (h : getRow db c.company_number = some r) :
    getRow (upsertFixed db c now) c.company_number
      = some (mergedFixed r c now) := by
  unfold upsertFixed
  rw [h]
  exact getRow_map_merge db c now r h

/-! Frame lemmas: which Candidate fields each parser update touches -/

theorem dateUpdStrict_address (c : Candidate) (t : String) :
    (dateUpdStrict c t).address = c.address := by
  unfold dateUpdStrict
  repeat' split
  all_goals rfl

theorem dateUpdStrict_postal (c : Candidate) (t : String) :
    (dateUpdStrict c t).postal_code = c.postal_code := by
  unfold dateUpdStrict
  repeat' split
  all_goals rfl

theorem dateUpdStrict_status (c : Candidate) (t : String) :
    (dateUpdStrict c t).company_status = c.company_status := by
  unfold dateUpdStrict
  repeat' split
  all_goals rfl

theorem dateUpdStrict_type (c : Candidate) (t : String) :
    (dateUpdStrict c t).company_type = c.company_type := by
  unfold dateUpdStrict
  repeat' split
  all_goals rfl

theorem numUpd_address (c : Candidate) (t : String) :
    (numUpd c t).address = c.address := by
  unfold numUpd
  repeat' split
  all_goals rfl

theorem numUpd_postal (c : Candidate) (t : String) :
    (numUpd c t).postal_code = c.postal_code := by
  unfold numUpd
  repeat' split
  all_goals rfl

theorem numUpd_status (c : Candidate) (t : String) :
    (numUpd c t).company_status = c.company_status := by
  unfold numUpd
  repeat' split
  all_goals rfl

theorem nameTypeUpd_address (c : Candidate) :
    (nameTypeUpd c).address = c.address := by
  unfold nameTypeUpd
  repeat' split
  all_goals rfl

theorem nameTypeUpd_postal (c : Candidate) :
    (nameTypeUpd c).postal_code = c.postal_code := by
  unfold nameTypeUpd
  repeat' split
  all_goals rfl

theorem nameTypeUpd_status (c : Candidate) :
    (nameTypeUpd c).company_status = c.company_status := by
  unfold nameTypeUpd
  repeat' split
  all_goals rfl

theorem fixedAddrUpd_status (c : Candidate) (t : String) :
    (fixedAddrUpd c t).company_status = c.company_status := by
  unfold fixedAddrUpd
  repeat' split
  all_goals rfl

theorem dbAddrUpd_type (c : Candidate) (t : String) (p : Para) :
    (dbAddrUpd c t p).company_type = c.company_type := by
  unfold dbAddrUpd
  repeat' split
  all_goals rfl

theorem phraseTypeUpd_type (c : Candidate) (t : String) :
    (phraseTypeUpd c t).company_type =
      (match entityPhrase t with
       | some ty => some ty
       | none => c.company_type) := by
  by_cases h1 : containsSub t "Private limited Company" = true
  · simp [phraseTypeUpd, entityPhrase, h1]
  · by_cases h2 : containsSub t "Public limited Company" = true
    · simp [phraseTypeUpd, entityPhrase, h1, h2]
    · by_cases h3 : containsSub t "Limited liability partnership" = true
      · simp [phraseTypeUpd, entityPhrase, h1, h2, h3]
      · simp [phraseTypeUpd, entityPhrase, h1, h2, h3]

/-- Non-emptiness invariant for the optional address and postal-code
fields of a candidate. -/
def addrInv (c : Candidate) : Prop :=
  (∀ v, c.address = some v → v ≠ "") ∧ (∀ v, c.postal_code = some v → v ≠ "")

theorem addrInv_of_eq (c c2 : Candidate) (ha : c2.address = c.address)
    (hp : c2.postal_code = c.postal_code) (h : addrInv c) : addrInv c2 := by
  constructor
  · intro v hv
    exact h.1 v (ha ▸ hv)
  · intro v hv
    exact h.2 v (hp ▸ hv)

theorem fixedAddrUpd_addrInv (c : Candidate) (t : String) (h : addrInv c) :
    addrInv (fixedAddrUpd c t) := by
  unfold fixedAddrUpd
  split
  · rename_i hcond
    have ht : t ≠ "" := by
      intro h0
      rw [h0] at hcond
      exact absurd hcond.2.1 (by decide)
    split
    · rename_i pc hpc
      constructor
      · intro v hv
        exact (Option.some.inj hv) ▸ ht
      · intro v hv
        exact (Option.some.inj hv) ▸ findPostcode_ne_empty _ _ hpc
    · constructor
      · intro v hv
        exact (Option.some.inj hv) ▸ ht
      · intro v hv
        exact h.2 v hv
  · exact h

theorem fixedStep_addrInv (c : Candidate) (t : String) (h : addrInv c) :
    addrInv (fixedStep c t) := by
  unfold fixedStep
  apply fixedAddrUpd_addrInv
  apply addrInv_of_eq (numUpd (dateUpdStrict c t) t) _
    (nameTypeUpd_address _) (nameTypeUpd_postal _)
  apply addrInv_of_eq (dateUpdStrict c t) _ (numUpd_address _ _) (numUpd_postal _ _)
  exact addrInv_of_eq c _ (dateUpdStrict_address _ _) (dateUpdStrict_postal _ _) h

theorem fixedDetailsLoop_addrInv (ps : List Para) (c c2 : Candidate)
    (h : addrInv c) (hl : fixedDetailsLoop c ps = some c2) : addrInv c2 := by
  induction ps generalizing c with
  | nil =>
    rw [fixedDetailsLoop] at hl
    exact (Option.some.inj hl) ▸ h
  | cons p ps ih =>
    simp only [fixedDetailsLoop] at hl
    split at hl
    · exact absurd hl (by simp)
    · exact ih _ (fixedStep_addrInv _ _ h) hl

/-- Evaluation of the fixed parser on a well-formed element, unfolding
the exception layer. -/
theorem parseFixed_node (hs : List Heading) (ps : List Para) :
    parseCompanyResultFixed (Elem.node hs ps) =
      (match hs.head? with
       | none => none
       | some h =>
         match h.link with
         | none => none
         | some link =>
           if (findCompanyNumber (link.href.getD "").toList).getD "" = "" then
             none
           else
             fixedDetailsLoop
               (fixedInit (pyStrip link.text)
                 ((findCompanyNumber (link.href.getD "").toList).getD "")
                 (link.href.getD "")) ps) := by
  cases hh : hs.head? with
  | none =>
    simp [parseCompanyResultFixed, parseCompanyResultFixedBody, getHeadings,
      getParas, hh, bind, Except.bind, pure, Except.pure]
  | some h =>
    cases hl : h.link with
    | none =>
      simp [parseCompanyResultFixed, parseCompanyResultFixedBody, getHeadings,
        getParas, hh, hl, bind, Except.bind, pure, Except.pure]
    | some link =>
      by_cases hnum : (findCompanyNumber (link.href.getD "").data).getD "" = ""
      · simp [parseCompanyResultFixed, parseCompanyResultFixedBody, getHeadings,
          getParas, hh, hl, hnum, bind, Except.bind, pure, Except.pure,
          String.toList]
      · simp [parseCompanyResultFixed, parseCompanyResultFixedBody, getHeadings,
          getParas, hh, hl, hnum, bind, Except.bind, pure, Except.pure,
          String.toList]

/-- Every candidate the fixed parser emits has non-empty address and
postal-code values whenever those fields are set. -/
theorem parseFixed_addrInv (e : Elem) (c : Candidate)
    (h : parseCompanyResultFixed e = some c) : addrInv c := by
  cases e with
  | broken m =>
    simp [parseCompanyResultFixed, parseCompanyResultFixedBody, getHeadings,
      bind, Except.bind] at h
  | node hs ps =>
    rw [parseFixed_node] at h
    split at h
    · exact absurd h (by simp)
    · split at h
      · exact absurd h (by simp)
      · split at h
        · exact absurd h (by simp)
        · refine fixedDetailsLoop_addrInv ps _ c ?_ h
          constructor
          · intro v hv
            simp [fixedInit] at hv
          · intro v hv
            simp [fixedInit] at hv

/-! Claim theorems -/

/-- Claim C1: on an upsert whose registryId is already stored, the
stored address and postal code are updated exactly when the new
candidate supplies a value (the `COALESCE` conflict path keeps the
stored value when the candidate's field is unset), and the fixed
parser never supplies an empty-string address or postal code, so a
candidate with empty address/postal fields leaves the stored values
unchanged while supplied values replace them. -/
theorem merge_fill_gaps (db : List Row) (c : Candidate) (now : Nat) (r : Row)
    (h : getRow db c.company_number = some r) :
    getRow (upsertFixed db c now) c.company_number = some (mergedFixed r c now)
    ∧ (c.address = none → (mergedFixed r c now).address = r.address)
    ∧ (∀ v, c.address = some v → (mergedFixed r c now).address = some v)
    ∧ (c.postal_code = none →
        (mergedFixed r c now).postal_code = r.postal_code)
    ∧ (∀ v, c.postal_code = some v →
        (mergedFixed r c now).postal_code = some v)
    ∧ (∀ e c2, parseCompanyResultFixed e = some c2 →
        (∀ v, c2.address = some v → v ≠ "") ∧
        (∀ v, c2.postal_code = some v → v ≠ "")) := by
  refine ⟨getRow_upsert_conflict db c now r h, ?_, ?_, ?_, ?_, ?_⟩
  · intro ha
    simp [mergedFixed, coalesce, ha]
  · intro v hv
    simp [mergedFixed, coalesce, hv]
  · intro hp
    simp [mergedFixed, coalesce, hp]
  · intro v hv
    simp [mergedFixed, coalesce, hv]
  · intro e c2 h2
    exact parseFixed_addrInv e c2 h2

/-- Stored row used by the upsert witnesses. -/
def w1row : Row :=
  { company_number := "123", company_name := "Acme",
    company_type := some "ltd", company_status := "active",
    date_of_creation := none, address := some "1 High St, London",
    postal_code := some "SW1A 1AA", sector_keyword := some "technology",
    company_url := some "u", data_source := "companies_house",
    created_at := 1, updated_at := 1, last_checked_at := 1 }

/-- Upserted candidate with unset address/postal fields, used by the
upsert witnesses. -/
def w1cand : Candidate :=
  { company_name := "Acme Ltd", company_number := "123",
    company_url := "u2", company_status := some "active",
    company_type := none, date_of_creation := none, address := none,
    postal_code := none, sector_keyword := none }

/-- Witness for C1 at a concrete table and candidate. -/
theorem merge_fill_gaps_witness :
    getRow (upsertFixed [w1row] w1cand 2) w1cand.company_number
      = some (mergedFixed w1row w1cand 2)
    ∧ (mergedFixed w1row w1cand 2).address = w1row.address :=
  ⟨(merge_fill_gaps [w1row] w1cand 2 w1row rfl).1,
   (merge_fill_gaps [w1row] w1cand 2 w1row rfl).2.1 rfl⟩

/-- Claim C5: the conflict path of the upsert leaves the stored
entity type, incorporation date and sector keyword (and every other
column except name, address, postal code and the refreshed update
timestamps) unchanged. -/
theorem conflict_path_frame (db : List Row) (c : Candidate) (now : Nat)
    (r : Row) (h : getRow db c.company_number = some r) :
    getRow (upsertFixed db c now) c.company_number = some (mergedFixed r c now)
    ∧ (mergedFixed r c now).company_type = r.company_type
    ∧ (mergedFixed r c now).date_of_creation = r.date_of_creation
    ∧ (mergedFixed r c now).sector_keyword = r.sector_keyword
    ∧ (mergedFixed r c now).company_status = r.company_status
    ∧ (mergedFixed r c now).company_url = r.company_url
    ∧ (mergedFixed r c now).data_source = r.data_source
    ∧ (mergedFixed r c now).created_at = r.created_at
    ∧ (mergedFixed r c now).company_number = r.company_number
    ∧ (mergedFixed r c now).company_name = c.company_name
    ∧ (mergedFixed r c now).updated_at = now
    ∧ (mergedFixed r c now).last_checked_at = now :=
  ⟨getRow_upsert_conflict db c now r h, rfl, rfl, rfl, rfl, rfl, rfl, rfl,
   rfl, rfl, rfl, rfl⟩

/-- Witness for C5 at a concrete table and candidate. -/
theorem conflict_path_frame_witness :
    getRow (upsertFixed [w1row] w1cand 2) w1cand.company_number
      = some (mergedFixed w1row w1cand 2)
    ∧ (mergedFixed w1row w1cand 2).company_type = w1row.company_type
    ∧ (mergedFixed w1row w1cand 2).date_of_creation = w1row.date_of_creation
    ∧ (mergedFixed w1row w1cand 2).sector_keyword = w1row.sector_keyword :=
  ⟨(conflict_path_frame [w1row] w1cand 2 w1row rfl).1,
   (conflict_path_frame [w1row] w1cand 2 w1row rfl).2.1,
   (conflict_path_frame [w1row] w1cand 2 w1row rfl).2.2.1,
   (conflict_path_frame [w1row] w1cand 2 w1row rfl).2.2.2.1⟩

/-- Claim C10: each per-block parse function is total at its public
interface: an `ok` body result is returned as is, and any raised
internal error is caught and converted into the no-candidate result. -/
theorem parse_total_interface (e : Elem) :
    (∀ m, parseCompanyResultFixedBody e = Except.error m →
      parseCompanyResultFixed e = none)
    ∧ (∀ r, parseCompanyResultFixedBody e = Except.ok r →
      parseCompanyResultFixed e = r)
    ∧ (∀ m, parseCompanyResultSimpleBody e = Except.error m →
      parseCompanyResultSimple e = none)
    ∧ (∀ r, parseCompanyResultSimpleBody e = Except.ok r →
      parseCompanyResultSimple e = r) := by
  refine ⟨?_, ?_, ?_, ?_⟩ <;> intro x hx <;>
    simp [parseCompanyResultFixed, parseCompanyResultSimple, hx]

/-- Witness for C10 at a malformed element. -/
theorem parse_total_interface_witness :
    parseCompanyResultFixed (Elem.broken "AttributeError") = none
    ∧ parseCompanyResultSimple (Elem.broken "AttributeError") = none :=
  ⟨(parse_total_interface (Elem.broken "AttributeError")).1 "AttributeError" rfl,
   (parse_total_interface (Elem.broken "AttributeError")).2.2.1 "AttributeError" rfl⟩

/-- Result block whose first paragraph carries a Dissolved marker and
whose second paragraph mentions Active. -/
def c3elem : Elem := Elem.node
  [{ classes := ["heading-medium"],
     link := some { text := "OLD MILL VENTURES LIMITED",
                    href := some "/company/01234567" } }]
  [{ text := "Dissolved on 3 March 2015", classes := [],
     hasAddressSpan := false },
   { text := "Active", classes := [], hasAddressSpan := false }]

/-- Candidate that `simple_scraper.py` emits for `c3elem`. -/
def c3cand : Candidate :=
  { company_name := "OLD MILL VENTURES LIMITED",
    company_number := "01234567",
    company_url := baseUrl ++ "/company/01234567",
    company_status := some "active", company_type := none,
    date_of_creation := none, address := none, postal_code := none,
    sector_keyword := none }

/-- Claim C3 failing input: the simple parser emits a candidate for a
block whose text contains a Dissolved marker, because the dissolved
branch only `continue`s and a later Active paragraph overwrites the
status. -/
theorem dissolved_block_still_emitted :
    parseCompanyResultSimple c3elem = some c3cand
    ∧ containsSub "Dissolved on 3 March 2015" "Dissolved" = true := by
  constructor <;> decide

/-- Result block whose heading link does not match the company-detail
path pattern. -/
def c4elem : Elem := Elem.node
  [{ classes := [],
     link := some { text := "Unlinked Co",
                    href := some "/search/companies?q=x" } }]
  [{ text := "Active", classes := [], hasAddressSpan := false }]

/-- Claim C4 failing input: `db_scraper.py` emits a candidate whose
registry identifier is the empty string when the link href yields no
company-number match. -/
theorem empty_registry_id_emitted :
    (parseCompanyResultDb c4elem).map Candidate.company_number = some "" := by
  decide

/-- Result block whose name carries no LIMITED marker but whose text
names the entity-type phrase `Private limited Company`. -/
def c9elem : Elem := Elem.node
  [{ classes := [],
     link := some { text := "ACME VENTURES",
                    href := some "/company/09999999" } }]
  [{ text := "Private limited Company", classes := [],
     hasAddressSpan := false }]

/-- Counterexample to claim C9: the fixed parser leaves the entity
type unset on a block whose descriptive text contains the
`Private limited Company` phrase, which the phrase mapping sends to
`ltd` — its type detection reads the company name, not the text. -/
theorem entity_type_from_name_not_text :
    (parseCompanyResultFixed c9elem).map Candidate.company_type = some none
    ∧ entityTypeFold (elemParaTexts c9elem) = some "ltd" := by
  constructor <;> decide

theorem fixedStep_status (c : Candidate) (t : String) :
    (fixedStep c t).company_status = c.company_status := by
  unfold fixedStep
  rw [fixedAddrUpd_status, nameTypeUpd_status, numUpd_status, dateUpdStrict_status]

/-- The fixed detail loop never touches the status field and only
aborts on a dissolved marker. -/
theorem fixedDetailsLoop_status (ps : List Para) (c : Candidate)
    (hnd : ∀ p ∈ ps, containsSub (pyStrip p.text) "Dissolved" = false
      ∧ containsSub (pyStrip p.text) "dissolved" = false) :
    (fixedDetailsLoop c ps).map Candidate.company_status
      = some c.company_status := by
  induction ps generalizing c with
  | nil => rfl
  | cons p ps ih =>
    have hp := hnd p (by simp)
    simp only [fixedDetailsLoop, hp.1, hp.2, Bool.or_self, Bool.false_eq_true,
      if_false]
    rw [ih (fixedStep c (pyStrip p.text))
      (fun q hq => hnd q (List.mem_cons_of_mem _ hq))]
    rw [fixedStep_status]

/-- Claim C8: a result block with a heading link and an extractable
company number whose paragraphs carry neither an Active nor a
Dissolved marker is emitted by the fixed parser with status defaulted
to `active` rather than excluded or marked unknown. -/
theorem status_active_default (hs : List Heading) (ps : List Para)
    (h : Heading) (link : Link) (num : String)
    (hh : hs.head? = some h) (hl : h.link = some link)
    (hn : findCompanyNumber (link.href.getD "").toList = some num)
    (hmk : ∀ p ∈ ps, containsSub (pyStrip p.text) "Active" = false
      ∧ containsSub (pyStrip p.text) "Dissolved" = false
      ∧ containsSub (pyStrip p.text) "dissolved" = false) :
    (parseCompanyResultFixed (Elem.node hs ps)).map Candidate.company_status
      = some (some "active") := by
  rw [parseFixed_node]
  simp only [hh, hl, hn, Option.getD_some]
  rw [if_neg (findCompanyNumber_ne_empty _ _ hn)]
  rw [fixedDetailsLoop_status ps _
    (fun p hp => ⟨(hmk p hp).2.1, (hmk p hp).2.2⟩)]
  rfl

/-- Heading used by the C8 witness. -/
def c8heading : Heading :=
  { classes := [],
    link := some { text := "ACME LTD", href := some "/company/00000001" } }

/-- Witness for C8 at a concrete marker-free block. -/
theorem status_active_default_witness :
    (parseCompanyResultFixed (Elem.node [c8heading] [])).map
      Candidate.company_status = some (some "active") :=
  status_active_default [c8heading] [] c8heading
    { text := "ACME LTD", href := some "/company/00000001" } "00000001"
    rfl rfl (by decide) (by simp)

theorem dbStep_type (c : Candidate) (t : String) (p : Para) :
    (dbStep c t p).company_type =
      (match entityPhrase t with
       | some ty => some ty
       | none => c.company_type) := by
  unfold dbStep
  rw [dateUpdStrict_type, dbAddrUpd_type, phraseTypeUpd_type]

/-- Through the `db_scraper.py` detail loop, the entity type is the
left fold of the phrase mapping over the paragraph texts. -/
theorem dbDetailsLoop_type (ps : List Para) (c c2 : Candidate)
    (hl : dbDetailsLoop c ps = some c2) :
    c2.company_type = (ps.map (fun p => pyStrip p.text)).foldl
      (fun acc t =>
        match entityPhrase t with
        | some ty => some ty
        | none => acc) c.company_type := by
  induction ps generalizing c with
  | nil =>
    rw [dbDetailsLoop] at hl
    have hc := Option.some.inj hl
    subst hc
    rfl
  | cons p ps ih =>
    simp only [dbDetailsLoop] at hl
    split at hl
    · have hty := ih _ hl
      rw [hty]
      simp only [List.map_cons, List.foldl_cons]
      rw [dbStep_type]
    · split at hl
      · exact absurd hl (by simp)
      · have hty := ih _ hl
        rw [hty]
        simp only [List.map_cons, List.foldl_cons]
        rw [dbStep_type]

/-- Evaluation of the `db_scraper.py` parser on a well-formed element,
unfolding the exception layer. -/
theorem parseDb_node (hs : List Heading) (ps : List Para) :
    parseCompanyResultDb (Elem.node hs ps) =
      (match hs.head? with
       | none => none
       | some h =>
         match h.link with
         | none => none
         | some link =>
           match dbDetailsLoop (plainInit (pyStrip link.text)
               ((findCompanyNumber (link.href.getD "").toList).getD "")
               (link.href.getD "")) ps with
           | none => none
           | some c =>
             if c.company_status == some "active" then some c else none) := by
  cases hh : hs.head? with
  | none =>
    simp [parseCompanyResultDb, parseCompanyResultDbBody, getHeadings,
      getParas, hh, bind, Except.bind, pure, Except.pure, String.toList]
  | some hd =>
    cases hl : hd.link with
    | none =>
      simp [parseCompanyResultDb, parseCompanyResultDbBody, getHeadings,
        getParas, hh, hl, bind, Except.bind, pure, Except.pure, String.toList]
    | some link =>
      cases hloop : dbDetailsLoop (plainInit (pyStrip link.text)
          ((findCompanyNumber (link.href.getD "").data).getD "")
          (link.href.getD "")) ps with
      | none =>
        simp [parseCompanyResultDb, parseCompanyResultDbBody, getHeadings,
          getParas, hh, hl, hloop, bind, Except.bind, pure, Except.pure,
          String.toList]
      | some c0 =>
        simp [parseCompanyResultDb, parseCompanyResultDbBody, getHeadings,
          getParas, hh, hl, hloop, bind, Except.bind, pure, Except.pure,
          String.toList]

/-- Claim C9 (amended): every candidate the `db_scraper.py` parser
emits carries the entity type computed by the declarative phrase
mapping over the block's descriptive fragments, with the last matching
fragment winning and `none` (unknown) when no fragment matches. -/
theorem entity_type_phrase_refinement (e : Elem) (c : Candidate)
    (h : parseCompanyResultDb e = some c) :
    c.company_type = entityTypeFold (elemParaTexts e) := by
  cases e with
  | broken m =>
    simp [parseCompanyResultDb, parseCompanyResultDbBody, getHeadings,
      bind, Except.bind] at h
  | node hs ps =>
    rw [parseDb_node] at h
    split at h
    · exact absurd h (by simp)
    · split at h
      · exact absurd h (by simp)
      · split at h
        · exact absurd h (by simp)
        · rename_i c0 hloop
          split at h
          · have hc := Option.some.inj h
            subst hc
            have hty := dbDetailsLoop_type ps _ _ hloop
            rw [hty]
            rfl
          · exact absurd h (by simp)

/-- Block with an Active marker and an entity-type phrase, used by the
C9 witness. -/
def c9wElem : Elem := Elem.node
  [{ classes := [],
     link := some { text := "ACME", href := some "/company/123" } }]
  [{ text := "Active", classes := [], hasAddressSpan := false },
   { text := "Private limited Company", classes := [],
     hasAddressSpan := false }]

/-- Candidate that `db_scraper.py` emits for `c9wElem`. -/
def c9wCand : Candidate :=
  { company_name := "ACME", company_number := "123",
    company_url := baseUrl ++ "/company/123",
    company_status := some "active", company_type := some "ltd",
    date_of_creation := none, address := none, postal_code := none,
    sector_keyword := none }

/-- Witness for the amended C9 at a concrete block. -/
theorem entity_type_phrase_refinement_witness :
    c9wCand.company_type = entityTypeFold (elemParaTexts c9wElem) :=
  entity_type_phrase_refinement c9wElem c9wCand (by decide)

/-- The table, total-saved and sector counters produced by the page
loop do not depend on the accumulated call trace. -/
theorem runPage_proj_indep (fails : Candidate → Bool) (now : Nat)
    (sector : String) (cs : List Candidate) :
    ∀ (st : RunSt) (x : List Candidate),
    (runPage fails now sector cs { st with calls := x }).db
      = (runPage fails now sector cs st).db
    ∧ (runPage fails now sector cs { st with calls := x }).saved
      = (runPage fails now sector cs st).saved
    ∧ (runPage fails now sector cs { st with calls := x }).sectorCnt
      = (runPage fails now sector cs st).sectorCnt := by
  induction cs with
  | nil => exact fun st x => ⟨rfl, rfl, rfl⟩
  | cons c cs ih =>
    intro st x
    have hstep : pageStep fails now sector { st with calls := x } c
        = { pageStep fails now sector st c with
            calls := x ++ [{ c with sector_keyword := some sector }] } := by
      simp [pageStep]
    simp only [runPage, List.foldl_cons] at ih ⊢
    rw [hstep]
    exact ih (pageStep fails now sector st c)
      (x ++ [{ c with sector_keyword := some sector }])

/-- Claim C7: a persistence failure is confined to its candidate: the
save call returns `False` with the table unchanged (the one-candidate
transaction is rolled back, earlier commits stand), the candidate is
not counted as saved, and the page loop's outcome is exactly that of
the same run without the failing candidate. -/
theorem persist_failure_confined (fails : Candidate → Bool) (now : Nat)
    (sector : String) (cs1 cs2 : List Candidate) (c : Candidate) (st : RunSt)
    (hf : fails { c with sector_keyword := some sector } = true) :
    (∀ db, saveCompanyToDb fails db { c with sector_keyword := some sector } now
      = (false, db))
    ∧ (runPage fails now sector (cs1 ++ c :: cs2) st).db
        = (runPage fails now sector (cs1 ++ cs2) st).db
    ∧ (runPage fails now sector (cs1 ++ c :: cs2) st).saved
        = (runPage fails now sector (cs1 ++ cs2) st).saved
    ∧ (runPage fails now sector (cs1 ++ c :: cs2) st).sectorCnt
        = (runPage fails now sector (cs1 ++ cs2) st).sectorCnt := by
  have hsave : ∀ db, saveCompanyToDb fails db
      { c with sector_keyword := some sector } now = (false, db) := by
    intro db
    simp [saveCompanyToDb, hf]
  have key : ∀ st1 : RunSt,
      (runPage fails now sector (c :: cs2) st1).db
        = (runPage fails now sector cs2 st1).db
      ∧ (runPage fails now sector (c :: cs2) st1).saved
        = (runPage fails now sector cs2 st1).saved
      ∧ (runPage fails now sector (c :: cs2) st1).sectorCnt
        = (runPage fails now sector cs2 st1).sectorCnt := by
    intro st1
    have hstep : pageStep fails now sector st1 c
        = { st1 with
            calls := st1.calls ++ [{ c with sector_keyword := some sector }] } := by
      simp [pageStep, saveCompanyToDb, hf]
    have hind := runPage_proj_indep fails now sector cs2 st1
      (st1.calls ++ [{ c with sector_keyword := some sector }])
    simp only [runPage, List.foldl_cons]
    rw [hstep]
    exact hind
  have happ1 : runPage fails now sector (cs1 ++ c :: cs2) st
      = runPage fails now sector (c :: cs2) (runPage fails now sector cs1 st) := by
    simp [runPage, List.foldl_append]
  have happ2 : runPage fails now sector (cs1 ++ cs2) st
      = runPage fails now sector cs2 (runPage fails now sector cs1 st) := by
    simp [runPage, List.foldl_append]
  refine ⟨hsave, ?_, ?_, ?_⟩
  · rw [happ1, happ2]
    exact (key _).1
  · rw [happ1, happ2]
    exact (key _).2.1
  · rw [happ1, happ2]
    exact (key _).2.2

/-- Failure oracle of the C7 witness: storage fails exactly on the
candidate whose number is `bad`. -/
def c7fails : Candidate → Bool := fun c => c.company_number == "bad"

/-- Candidates used by the C7 witness. -/
def c7good : Candidate :=
  { company_name := "G1", company_number := "1", company_url := "u1",
    company_status := some "active", company_type := none,
    date_of_creation := none, address := none, postal_code := none,
    sector_keyword := none }

def c7bad : Candidate :=
  { company_name := "B", company_number := "bad", company_url := "ub",
    company_status := some "active", company_type := none,
    date_of_creation := none, address := none, postal_code := none,
    sector_keyword := none }

def c7good2 : Candidate :=
  { company_name := "G2", company_number := "2", company_url := "u2",
    company_status := some "active", company_type := none,
    date_of_creation := none, address := none, postal_code := none,
    sector_keyword := none }

/-- Witness for C7 at a concrete page with one failing candidate. -/
theorem persist_failure_confined_witness :
    (runPage c7fails 0 "tech" [c7good, c7bad, c7good2] (initRun [])).db
      = (runPage c7fails 0 "tech" [c7good, c7good2] (initRun [])).db
    ∧ (runPage c7fails 0 "tech" [c7good, c7bad, c7good2] (initRun [])).saved
      = (runPage c7fails 0 "tech" [c7good, c7good2] (initRun [])).saved :=
  ⟨(persist_failure_confined c7fails 0 "tech" [c7good] [c7good2] c7bad
      (initRun []) (by decide)).2.1,
   (persist_failure_confined c7fails 0 "tech" [c7good] [c7good2] c7bad
      (initRun []) (by decide)).2.2.1⟩

/-- The page body never issues fetch requests. -/
theorem runPage_requests (fails : Candidate → Bool) (now : Nat)
    (sector : String) (cs : List Candidate) :
    ∀ st : RunSt, (runPage fails now sector cs st).requests = st.requests := by
  induction cs with
  | nil => exact fun st => rfl
  | cons c cs ih =>
    intro st
    simp only [runPage, List.foldl_cons] at ih ⊢
    rw [ih (pageStep fails now sector st c)]
    rfl

/-- Characterization of the requests issued by the page loop of one
sector: each new request targets a page within the fuel window, and
every page before it returned a non-empty result. -/
theorem mem_runSectorFuel (results : String → Nat → List Candidate)
    (fails : Candidate → Bool) (now : Nat) (sector : String) :
    ∀ (fuel page : Nat) (st : RunSt) (s : String) (q : Nat),
    (s, q) ∈ (runSectorFuel results fails now sector page fuel st).requests →
    (s, q) ∈ st.requests ∨ (s = sector ∧ page ≤ q ∧ q < page + fuel ∧
      ∀ r, page ≤ r → r < q → results sector r ≠ []) := by
  intro fuel
  induction fuel with
  | zero => exact fun page st s q h => Or.inl h
  | succ fuel ih =>
    intro page st s q h
    simp only [runSectorFuel] at h
    split at h
    · rename_i hemp
      simp only [List.mem_append, List.mem_singleton] at h
      cases h with
      | inl h => exact Or.inl h
      | inr h =>
        have hs : s = sector := congrArg Prod.fst h
        have hq : q = page := congrArg Prod.snd h
        subst hs
        subst hq
        exact Or.inr ⟨rfl, Nat.le_refl _, by omega, fun r h1 h2 => by omega⟩
    · rename_i hemp
      have hres : results sector page ≠ [] := by
        simpa [List.isEmpty_iff] using hemp
      have h2 := ih (page + 1)
        (runPage fails now sector (results sector page)
          { st with requests := st.requests ++ [(sector, page)] }) s q h
      rw [runPage_requests] at h2
      cases h2 with
      | inl h2 =>
        simp only [List.mem_append, List.mem_singleton] at h2
        cases h2 with
        | inl h2 => exact Or.inl h2
        | inr h2 =>
          have hs : s = sector := congrArg Prod.fst h2
          have hq : q = page := congrArg Prod.snd h2
          subst hs
          subst hq
          exact Or.inr ⟨rfl, Nat.le_refl _, by omega, fun r h1 h2 => by omega⟩
      | inr h2 =>
        obtain ⟨hs, hq1, hq2, hall⟩ := h2
        refine Or.inr ⟨hs, by omega, by omega, ?_⟩
        intro r hr1 hr2
        by_cases hrp : r = page
        · subst hrp
          exact hres
        · exact hall r (by omega) hr2

/-- Characterization of all requests of a whole run: pages start at 1,
stay within the cap, and are only reached through non-empty
predecessor pages of the same sector. -/
theorem mem_runSectors (results : String → Nat → List Candidate)
    (fails : Candidate → Bool) (now : Nat) :
    ∀ (sectors : List String) (maxPages : Nat) (st : RunSt) (s : String)
      (q : Nat),
    (s, q) ∈ (runSectors results fails now sectors maxPages st).requests →
    (s, q) ∈ st.requests ∨ (1 ≤ q ∧ q < 1 + maxPages ∧
      ∀ r, 1 ≤ r → r < q → results s r ≠ []) := by
  intro sectors
  induction sectors with
  | nil => exact fun maxPages st s q h => Or.inl h
  | cons sector rest ih =>
    intro maxPages st s q h
    simp only [runSectors] at h
    have h2 := ih maxPages _ s q h
    cases h2 with
    | inr h2 => exact Or.inr h2
    | inl h2 =>
      have h3 := mem_runSectorFuel results fails now sector maxPages 1
        { st with sectorCnt := 0 } s q h2
      cases h3 with
      | inl h3 => exact Or.inl h3
      | inr h3 =>
        obtain ⟨hs, h1, hlt, hall⟩ := h3
        subst hs
        exact Or.inr ⟨h1, hlt, hall⟩

/-- Claim C6: when a page of a sector produced zero candidates
(including the fetch-failure case, which yields an empty page), the
driver never requests the next page of that sector; and every request
of the run targets a page between 1 and the configured cap. -/
theorem pagination_stops_and_caps (results : String → Nat → List Candidate)
    (fails : Candidate → Bool) (now : Nat) (sectors : List String)
    (maxPages : Nat) (db : List Row) (sector : String) (p : Nat)
    (hp : 1 ≤ p) (hres : results sector p = []) :
    (sector, p + 1) ∉
      (scrapeAndSaveFixed results fails now sectors maxPages db).requests
    ∧ ∀ s q,
      (s, q) ∈ (scrapeAndSaveFixed results fails now sectors maxPages db).requests →
      1 ≤ q ∧ q ≤ maxPages := by
  constructor
  · intro hmem
    have h := mem_runSectors results fails now sectors maxPages (initRun db)
      sector (p + 1) hmem
    cases h with
    | inl h => simp [initRun] at h
    | inr h =>
      obtain ⟨h1, h2, hall⟩ := h
      exact hall p hp (by omega) hres
  · intro s q hmem
    have h := mem_runSectors results fails now sectors maxPages (initRun db)
      s q hmem
    cases h with
    | inl h => simp [initRun] at h
    | inr h => exact ⟨h.1, by omega⟩

/-- Results oracle of the C6 witness: every page is empty. -/
def c6results : String → Nat → List Candidate := fun _ _ => []

/-- Witness for C6: with every page empty, page 2 of the sector is
never requested. -/
theorem pagination_stops_and_caps_witness :
    ("tech", 2) ∉
      (scrapeAndSaveFixed c6results (fun _ => false) 0 ["tech"] 3 []).requests :=
  (pagination_stops_and_caps c6results (fun _ => false) 0 ["tech"] 3 []
    "tech" 1 (by decide) rfl).1

/-- Boolean `contains` on the seen set agrees with membership. -/
theorem stringContains_iff (l : List String) (a : String) :
    l.contains a = true ↔ a ∈ l := by
  simp [List.contains]

theorem contains_false_not_mem (l : List String) (a : String)
    (h : l.contains a = false) : a ∉ l := by
  intro hm
  rw [(stringContains_iff l a).mpr hm] at h
  exact Bool.noConfusion h

/-- Invariant of the dedup fold of
`simple_scraper.scrape_companies_by_sector`: emitted company numbers
are pairwise distinct and all recorded in the seen set. -/
def dedupInv (st : List String × List Candidate) : Prop :=
  (st.2.map Candidate.company_number).Nodup
  ∧ ∀ c ∈ st.2, c.company_number ∈ st.1

theorem seenStep_inv (sector : String) (st : List String × List Candidate)
    (c : Candidate) (h : dedupInv st) : dedupInv (seenStep sector st c) := by
  unfold seenStep
  split
  · rename_i hcond
    have hnotmem : c.company_number ∉ st.1 :=
      contains_false_not_mem _ _ hcond.2
    constructor
    · simp only [List.map_append, List.map_cons, List.map_nil]
      rw [List.nodup_append]
      refine ⟨h.1, List.nodup_singleton _, ?_⟩
      intro a ha hb
      rw [List.mem_singleton] at hb
      rw [List.mem_map] at ha
      obtain ⟨c0, hc0, hnum⟩ := ha
      apply hnotmem
      have hb2 : a = c.company_number := hb
      have hmem := h.2 c0 hc0
      rw [hnum, hb2] at hmem
      exact hmem
    · intro c0 hc0
      rw [List.mem_append] at hc0
      cases hc0 with
      | inl hc0 => exact List.mem_append_left _ (h.2 c0 hc0)
      | inr hc0 =>
        rw [List.mem_singleton] at hc0
        subst hc0
        exact List.mem_append_right _ (List.mem_singleton.mpr rfl)
  · exact h

theorem foldl_seenStep_inv (sector : String) (cs : List Candidate) :
    ∀ st, dedupInv st → dedupInv (cs.foldl (seenStep sector) st) := by
  induction cs with
  | nil => exact fun st h => h
  | cons c cs ih =>
    intro st h
    simp only [List.foldl_cons]
    exact ih _ (seenStep_inv sector st c h)

theorem simpleSectorFuel_inv (results : String → Nat → List Candidate)
    (sector : String) :
    ∀ (fuel page : Nat) (st : List String × List Candidate),
    dedupInv st → dedupInv (simpleSectorFuel results sector page fuel st) := by
  intro fuel
  induction fuel with
  | zero => exact fun page st h => h
  | succ fuel ih =>
    intro page st h
    simp only [simpleSectorFuel]
    split
    · exact h
    · exact ih (page + 1) _ (foldl_seenStep_inv sector _ st h)

theorem simpleSectors_inv (results : String → Nat → List Candidate) :
    ∀ (sectors : List String) (maxPages : Nat)
      (st : List String × List Candidate),
    dedupInv st → dedupInv (simpleSectors results sectors maxPages st) := by
  intro sectors
  induction sectors with
  | nil => exact fun maxPages st h => h
  | cons sector rest ih =>
    intro maxPages st h
    simp only [simpleSectors]
    exact ih maxPages _ (simpleSectorFuel_inv results sector maxPages 1 st h)

/-- Over a duplicate-free list, at most one element matches any key. -/
theorem nodup_countP_le_one (l : List String) (hl : l.Nodup) (id : String) :
    l.countP (fun n => n == id) ≤ 1 := by
  induction l with
  | nil => simp
  | cons a l ih =>
    rw [List.countP_cons]
    by_cases ha : (a == id) = true
    · have haid : a = id := by simpa using ha
      subst haid
      have hnotin : a ∉ l := (List.nodup_cons.mp hl).1
      have hzero : l.countP (fun n => n == a) = 0 := by
        rw [List.countP_eq_zero]
        intro b hb
        simp only [beq_iff_eq]
        intro hba
        exact hnotin (hba ▸ hb)
      rw [hzero, ha]
      simp
    · have hrec := ih (List.nodup_cons.mp hl).2
      simp only [ha]
      simpa using hrec

/-- Claim C2 (amended): in `simple_scraper.scrape_companies_by_sector`
— the one variant with a run-local Dedup Index — each registry
identifier is emitted at most once per run, across pages and sectors. -/
theorem dedup_single_emission (results : String → Nat → List Candidate)
    (sectors : List String) (maxPages : Nat) (id : String) :
    (scrapeCompaniesBySector results sectors maxPages).countP
      (fun c => c.company_number == id) ≤ 1 := by
  have hinv : dedupInv (simpleSectors results sectors maxPages ([], [])) := by
    apply simpleSectors_inv
    exact ⟨List.nodup_nil, fun c hc => absurd hc (List.not_mem_nil c)⟩
  have hle := nodup_countP_le_one _ hinv.1 id
  rw [List.countP_map] at hle
  exact hle

/-- Candidate appearing under two sectors in the C2 counterexample. -/
def c2candA : Candidate :=
  { company_name := "ACME TECH LIMITED", company_number := "123",
    company_url := baseUrl ++ "/company/123",
    company_status := some "active", company_type := none,
    date_of_creation := none, address := none, postal_code := none,
    sector_keyword := none }

/-- Results oracle of the C2 counterexample: page 1 of every sector
returns the same company. -/
def c2results : String → Nat → List Candidate :=
  fun _ p => if p == 1 then [c2candA] else []

/-- Counterexample to claim C2: the `db_scraper_fixed.py` driver has no
run-local dedup index, so the same registryId seen under two sectors
reaches `save_company_to_db` twice in one run. -/
theorem dedup_second_upsert_call :
    ((scrapeAndSaveFixed c2results (fun _ => false) 0
      ["technology", "finance"] 2 []).calls.countP
      (fun c => c.company_number == "123")) = 2
    ∧ ¬(((scrapeAndSaveFixed c2results (fun _ => false) 0
      ["technology", "finance"] 2 []).calls.countP
      (fun c => c.company_number == "123")) ≤ 1) := by
  constructor <;> decide
